import Mathlib

/-!
Verification of the Virtual Cloud Assistant frontend audio pipeline.

The development shallowly embeds two source files:

* `src/frontend/react-web/public/audio-processor.js` — the `AudioProcessor`
  audio-worklet class: a growable playback buffer with a read cursor,
  watermark-triggered "need data" requests, starvation recovery with silence
  substitution, hard resets, and periodic compaction.
* `src/frontend/react-web/src/Content.js` — the PCM16 ↔ float codec
  (`floatToPcm16` / `pcm16ToFloat`) and the WebSocket session manager
  (open handler, config message, bounded reconnection on close).

Audio samples are modelled as rationals (the JS floats carry exact dyadic
values through the operations in question); wall-clock times (`Date.now()`)
are modelled as integers in milliseconds.
-/

/-! ### Constants of audio-processor.js -/

/-- Audio sample rate; `SAMPLE_RATE` in Content.js, and the worklet-global
`sampleRate` of the AudioContext created with that rate. -/
def sampleRate : ℕ := 16000

/-- `this.bufferThreshold = 8192` — minimum buffer size before requesting more data. -/
def bufferThreshold : ℕ := 8192

/-- `this.normalStarvationTimeout = 20000`. -/
def normalStarvationTimeout : ℤ := 20000

/-- `this.kbStarvationTimeout = 30000`. -/
def kbStarvationTimeout : ℤ := 30000

/-- `this.maxRecoveryAttempts = 10`. -/
def maxRecoveryAttempts : ℕ := 10

/-- `this.maxSilenceFills = 100`. -/
def maxSilenceFills : ℕ := 100

/-! ### AudioProcessor state -/

/-- Mutable fields of the `AudioProcessor` instance.  `buffer` is the
`Float32Array` of pending samples and `position` the read cursor. -/
structure AudioState where
  buffer : List ℚ
  position : ℕ
  isPlaying : Bool
  lastDataTime : ℤ
  starvationTimeout : ℤ
  needDataRequested : Bool
  recoveryAttempts : ℕ
  isKnowledgeBaseQuery : Bool
  silenceFillCount : ℕ
  adaptiveBufferMode : Bool
  deriving DecidableEq

/-- The constructor's initial field values. -/
def initialAudioState (now : ℤ) : AudioState :=
  { buffer := []
    position := 0
    isPlaying := true
    lastDataTime := now
    starvationTimeout := 30000
    needDataRequested := false
    recoveryAttempts := 0
    isKnowledgeBaseQuery := false
    silenceFillCount := 0
    adaptiveBufferMode := false }

/-- Messages the processor posts to the main thread via `this.port.postMessage`. -/
inductive OutMsg where
  | needData
  | stopped
  | bufferReset
  deriving DecidableEq

/-! ### Message handlers (this.port.onmessage) -/

/-- The `'data'` handler: append the incoming audio to the buffer, mark playing,
refresh the last-data timestamp, clear the outstanding-request flag, and zero the
recovery-attempt and silence-fill counters. -/
def handleData (audio : List ℚ) (now : ℤ) (s : AudioState) : AudioState :=
  { s with
    buffer := s.buffer ++ audio
    isPlaying := true
    lastDataTime := now
    needDataRequested := false
    recoveryAttempts := 0
    silenceFillCount := 0 }

/-- The `'clear'` handler: drop the buffer, zero the cursor, clear the
outstanding-request flag and the silence-fill count. -/
def handleClear (s : AudioState) : AudioState :=
  { s with
    buffer := []
    position := 0
    needDataRequested := false
    silenceFillCount := 0 }

/-- The `'stop'` handler: like `clear` but also stops playback and posts
`'stopped'`. -/
def handleStop (s : AudioState) : AudioState × List OutMsg :=
  ({ s with
      buffer := []
      position := 0
      isPlaying := false
      needDataRequested := false
      silenceFillCount := 0 }, [OutMsg.stopped])

/-- The `'kb_mode_on'` handler: extended starvation timeout and adaptive
(buffered) watermark. -/
def handleKbModeOn (s : AudioState) : AudioState :=
  { s with
    isKnowledgeBaseQuery := true
    starvationTimeout := kbStarvationTimeout
    adaptiveBufferMode := true }

/-- The `'kb_mode_off'` handler: back to the normal timeout and watermark. -/
def handleKbModeOff (s : AudioState) : AudioState :=
  { s with
    isKnowledgeBaseQuery := false
    starvationTimeout := normalStarvationTimeout
    adaptiveBufferMode := false }

/-! ### requestMoreDataIfNeeded / handleStarvation / process -/

/-- `requestMoreDataIfNeeded`: if the unconsumed part of the buffer is below the
(possibly doubled) watermark and no request is outstanding, post `'needData'`
and set the outstanding flag. -/
def requestMoreDataIfNeeded (s : AudioState) : AudioState × List OutMsg :=
  let threshold : ℤ := if s.adaptiveBufferMode then (bufferThreshold : ℤ) * 2 else (bufferThreshold : ℤ)
  if (s.buffer.length : ℤ) - (s.position : ℤ) < threshold ∧ s.needDataRequested = false then
    ({ s with needDataRequested := true }, [OutMsg.needData])
  else
    (s, [])

/-- `handleStarvation(output)`: returns the new state, the posted messages, and
the JS boolean result (`true` = starvation handled, `false` = hard reset
occurred).  The `output.fill(0)` side effects are accounted for in `process`,
whose output block is silence on every path that reaches this function. -/
def handleStarvation (now : ℤ) (s : AudioState) : AudioState × List OutMsg × Bool :=
  if now - s.lastDataTime > s.starvationTimeout then
    if s.recoveryAttempts < maxRecoveryAttempts then
      let s1 := { s with
        recoveryAttempts := s.recoveryAttempts + 1
        silenceFillCount := s.silenceFillCount + 1
        needDataRequested := false }
      let r := requestMoreDataIfNeeded s1
      if maxSilenceFills < r.1.silenceFillCount then
        ({ r.1 with buffer := [], position := 0, silenceFillCount := 0 },
         r.2 ++ [OutMsg.bufferReset], true)
      else
        (r.1, r.2, true)
    else
      ({ s with
          buffer := []
          position := 0
          needDataRequested := false
          recoveryAttempts := 0
          silenceFillCount := 0 }, [OutMsg.bufferReset], false)
  else
    (s, [], true)

/-- `process(inputs, outputs, parameters)` for an output block of length `n` at
wall-clock time `now`.  Returns the new state, the samples written to the output
block, and the posted messages. -/
def process (n : ℕ) (now : ℤ) (s : AudioState) : AudioState × List ℚ × List OutMsg :=
  if s.isPlaying = false then
    (s, List.replicate n 0, [])
  else
    let r1 := requestMoreDataIfNeeded s
    if (r1.1.buffer.length : ℤ) - (r1.1.position : ℤ) < (n : ℤ) then
      let r2 := handleStarvation now r1.1
      if r2.2.2 = false then
        (r2.1, List.replicate n 0, r1.2 ++ r2.2.1)
      else
        ({ r2.1 with silenceFillCount := r2.1.silenceFillCount + 1 },
         List.replicate n 0, r1.2 ++ r2.2.1)
    else
      let out := (r1.1.buffer.drop r1.1.position).take n
      let s2 := { r1.1 with position := r1.1.position + n, silenceFillCount := 0 }
      let s3 := if sampleRate * 5 < s2.position then
          { s2 with buffer := s2.buffer.drop s2.position, position := 0 }
        else s2
      (s3, out, r1.2)

/-- C8: the `clear` handler is idempotent — applying it twice equals applying
it once, and after each of the two calls the buffer is empty with the cursor at
zero. -/
theorem clear_idempotent (s : AudioState) :
    handleClear (handleClear s) = handleClear s ∧
    (handleClear s).buffer = [] ∧ (handleClear s).position = 0 ∧
    (handleClear (handleClear s)).buffer = [] ∧
    (handleClear (handleClear s)).position = 0 := by
  refine ⟨rfl, rfl, rfl, rfl, rfl⟩

/-! ### PCM16 codec (Content.js: floatToPcm16 / pcm16ToFloat) -/

/-- Truncation toward zero, as the JS ToInteger conversion applied when a
number is stored into an `Int16Array`. -/
def ratTrunc (q : ℚ) : ℤ := if q < 0 then -⌊-q⌋ else ⌊q⌋

/-- Wrap an integer into the signed 16-bit range, as `Int16Array` storage does. -/
def toInt16 (z : ℤ) : ℤ := (z + 32768) % 65536 - 32768

/-- One sample of `floatToPcm16`: clamp to [-1, 1], scale negatives by 0x8000
and non-negatives by 0x7FFF, and store into the `Int16Array`. -/
def floatToPcm16One (x : ℚ) : ℤ :=
  let s := max (-1) (min 1 x)
  toInt16 (if s < 0 then ratTrunc (s * 32768) else ratTrunc (s * 32767))

/-- One sample of `pcm16ToFloat`: divide the little-endian-decoded 16-bit
integer by 32768.0. -/
def pcm16ToFloatOne (z : ℤ) : ℚ := (z : ℚ) / 32768

/-- `floatToPcm16` over a whole capture block. -/
def floatToPcm16 (input : List ℚ) : List ℤ := input.map floatToPcm16One

/-- `pcm16ToFloat` over a whole wire payload. -/
def pcm16ToFloat (buf : List ℤ) : List ℚ := buf.map pcm16ToFloatOne

theorem toInt16_eq_self (z : ℤ) (h1 : -32768 ≤ z) (h2 : z ≤ 32767) :
    toInt16 z = z := by
  unfold toInt16
  omega

/-- C4 (counterexample): at s = 65535/65536 (exactly representable as a
float32), encode gives floor(32767·s) = 32766 and decode gives 32766/32768, an
error of 3/65536, which exceeds the claimed bound 1/32768 = 2/65536. -/
theorem pcm16_round_trip_counterexample :
    -1 ≤ (65535/65536 : ℚ) ∧ (65535/65536 : ℚ) ≤ 1 ∧
    ¬ |pcm16ToFloatOne (floatToPcm16One (65535/65536)) - 65535/65536| ≤ 1/32768 := by
  have hmin : min (1 : ℚ) (65535/65536) = 65535/65536 := min_eq_right (by norm_num)
  have hmax : max (-1 : ℚ) (65535/65536 : ℚ) = 65535/65536 := max_eq_right (by norm_num)
  have hfl : ⌊(65535/65536 : ℚ) * 32767⌋ = 32766 := by
    rw [Int.floor_eq_iff]
    constructor
    · norm_num
    · norm_num
  have henc : floatToPcm16One (65535/65536) = 32766 := by
    unfold floatToPcm16One
    simp only [hmin, hmax]
    rw [if_neg (by norm_num)]
    unfold ratTrunc
    rw [if_neg (by norm_num), hfl]
    unfold toInt16
    norm_num
  refine ⟨by norm_num, by norm_num, ?_⟩
  rw [henc]
  unfold pcm16ToFloatOne
  rw [abs_of_neg (by norm_num)]
  norm_num

/-- C4 (amended): for every sample s in [-1, 1], decoding the PCM16 encoding
of s yields a value within 1/16384 (= 2/32768) of s.  The asymmetric scaling
(negatives by 32768, non-negatives by 32767) with decoding by 32768 makes the
non-negative branch err by up to just under 2/32768. -/
theorem pcm16_round_trip_amended (x : ℚ) (h1 : -1 ≤ x) (h2 : x ≤ 1) :
    |pcm16ToFloatOne (floatToPcm16One x) - x| ≤ 1/16384 := by
  have hclamp : max (-1 : ℚ) (min 1 x) = x := by
    rw [min_eq_right h2, max_eq_right h1]
  unfold floatToPcm16One
  simp only [hclamp]
  by_cases hx : x < 0
  · rw [if_pos hx]
    unfold ratTrunc
    rw [if_pos (by nlinarith : x * 32768 < 0)]
    have hmle : (⌊-(x * 32768)⌋ : ℚ) ≤ -(x * 32768) := Int.floor_le _
    have hmgt : -(x * 32768) - 1 < (⌊-(x * 32768)⌋ : ℚ) := Int.sub_one_lt_floor _
    have hm0 : 0 ≤ ⌊-(x * 32768)⌋ := by
      rw [Int.le_floor]
      push_cast
      nlinarith
    have hmub : ⌊-(x * 32768)⌋ ≤ 32768 := by
      have : (⌊-(x * 32768)⌋ : ℚ) ≤ 32768 := by nlinarith
      exact_mod_cast this
    rw [toInt16_eq_self _ (by omega) (by omega)]
    unfold pcm16ToFloatOne
    push_cast
    rw [abs_of_nonneg (by linarith)]
    linarith
  · rw [if_neg hx]
    push_neg at hx
    unfold ratTrunc
    rw [if_neg (by nlinarith : ¬ x * 32767 < 0)]
    have hmle : (⌊x * 32767⌋ : ℚ) ≤ x * 32767 := Int.floor_le _
    have hmgt : x * 32767 - 1 < (⌊x * 32767⌋ : ℚ) := Int.sub_one_lt_floor _
    have hm0 : 0 ≤ ⌊x * 32767⌋ := by
      rw [Int.le_floor]
      push_cast
      nlinarith
    have hmub : ⌊x * 32767⌋ ≤ 32767 := by
      have : (⌊x * 32767⌋ : ℚ) ≤ 32767 := by nlinarith
      exact_mod_cast this
    rw [toInt16_eq_self _ (by omega) (by omega)]
    unfold pcm16ToFloatOne
    rw [abs_of_nonpos (by nlinarith)]
    nlinarith

/-- Witness for the amended C4 bound at the concrete sample s = 1/2. -/
theorem pcm16_round_trip_amended_witness :
    -1 ≤ (1/2 : ℚ) ∧ (1/2 : ℚ) ≤ 1 ∧
    |pcm16ToFloatOne (floatToPcm16One (1/2)) - 1/2| ≤ 1/16384 :=
  ⟨by norm_num, by norm_num, pcm16_round_trip_amended (1/2) (by norm_num) (by norm_num)⟩

inductive WorkletEvent where
  | data (audio : List ℚ) (now : ℤ)
  | clear
  | stop
  | kbModeOn
  | kbModeOff
  | tick (n : ℕ) (now : ℤ)
  deriving DecidableEq

def stepEvent (s : AudioState) : WorkletEvent → AudioState
  | WorkletEvent.data audio now => handleData audio now s
  | WorkletEvent.clear => handleClear s
  | WorkletEvent.stop => (handleStop s).1
  | WorkletEvent.kbModeOn => handleKbModeOn s
  | WorkletEvent.kbModeOff => handleKbModeOff s
  | WorkletEvent.tick n now => (process n now s).1

theorem requestMoreDataIfNeeded_fst (s : AudioState) :
    (requestMoreDataIfNeeded s).1 = s ∨
    (requestMoreDataIfNeeded s).1 = { s with needDataRequested := true } := by
  simp only [requestMoreDataIfNeeded]
  split_ifs
  all_goals first | exact Or.inl rfl | exact Or.inr rfl

theorem requestMoreDataIfNeeded_buffer (s : AudioState) :
    (requestMoreDataIfNeeded s).1.buffer = s.buffer := by
  rcases requestMoreDataIfNeeded_fst s with h | h
  all_goals rw [h]

theorem requestMoreDataIfNeeded_position (s : AudioState) :
    (requestMoreDataIfNeeded s).1.position = s.position := by
  rcases requestMoreDataIfNeeded_fst s with h | h
  all_goals rw [h]

def BufferInv (s : AudioState) : Prop := s.position ≤ s.buffer.length

theorem handleStarvation_inv (now : ℤ) (s : AudioState) (h : BufferInv s) :
    BufferInv (handleStarvation now s).1 := by
  simp only [handleStarvation]
  split_ifs
  · exact Nat.zero_le _
  · rcases requestMoreDataIfNeeded_fst
      { s with recoveryAttempts := s.recoveryAttempts + 1,
               silenceFillCount := s.silenceFillCount + 1,
               needDataRequested := false } with hr | hr
    · rw [hr]; exact h
    · rw [hr]; exact h
  · exact Nat.zero_le _
  · exact h

theorem process_inv (n : ℕ) (now : ℤ) (s : AudioState) (h : BufferInv s) :
    BufferInv (process n now s).1 := by
  have hb := requestMoreDataIfNeeded_buffer s
  have hp := requestMoreDataIfNeeded_position s
  have hinv : BufferInv (requestMoreDataIfNeeded s).1 := by
    unfold BufferInv at h ⊢
    rw [hb, hp]
    exact h
  simp only [process]
  split_ifs with h1 h2 h3
  · exact h
  · exact handleStarvation_inv now _ hinv
  · exact handleStarvation_inv now _ hinv
  · exact Nat.zero_le _
  · unfold BufferInv at hinv ⊢
    dsimp only
    rw [hb, hp] at h2 ⊢
    omega

/-- C9: the invariant 0 ≤ cursor ≤ buffer length holds in the constructor's
initial state and is preserved by every worklet operation: `data` (append),
`clear`, `stop`, the two knowledge-base mode toggles, and a `process` tick
including its starvation, hard-reset, and compaction branches. -/
theorem cursor_invariant :
    (∀ now : ℤ, 0 ≤ (initialAudioState now).position ∧
      (initialAudioState now).position ≤ (initialAudioState now).buffer.length) ∧
    ∀ (s : AudioState) (e : WorkletEvent),
      0 ≤ s.position ∧ s.position ≤ s.buffer.length →
      0 ≤ (stepEvent s e).position ∧ (stepEvent s e).position ≤ (stepEvent s e).buffer.length := by
  constructor
  · intro now
    exact ⟨Nat.zero_le _, Nat.zero_le _⟩
  · intro s e h
    refine ⟨Nat.zero_le _, ?_⟩
    cases e with
    | data audio now =>
        show s.position ≤ (s.buffer ++ audio).length
        rw [List.length_append]
        omega
    | clear => exact Nat.zero_le _
    | stop => exact Nat.zero_le _
    | kbModeOn => exact h.2
    | kbModeOff => exact h.2
    | tick n now => exact process_inv n now s h.2

/-- Witness for C9 at the initial state and a `clear` event. -/
theorem cursor_invariant_witness :
    0 ≤ (stepEvent (initialAudioState 0) WorkletEvent.clear).position ∧
    (stepEvent (initialAudioState 0) WorkletEvent.clear).position ≤
      (stepEvent (initialAudioState 0) WorkletEvent.clear).buffer.length :=
  cursor_invariant.2 (initialAudioState 0) WorkletEvent.clear (by decide)

theorem requestMoreDataIfNeeded_lastDataTime (s : AudioState) :
    (requestMoreDataIfNeeded s).1.lastDataTime = s.lastDataTime := by
  rcases requestMoreDataIfNeeded_fst s with h | h
  all_goals rw [h]

theorem requestMoreDataIfNeeded_starvationTimeout (s : AudioState) :
    (requestMoreDataIfNeeded s).1.starvationTimeout = s.starvationTimeout := by
  rcases requestMoreDataIfNeeded_fst s with h | h
  all_goals rw [h]

theorem handleStarvation_no_timeout (now : ℤ) (s : AudioState)
    (h : now - s.lastDataTime ≤ s.starvationTimeout) :
    handleStarvation now s = (s, [], true) := by
  simp only [handleStarvation]
  rw [if_neg]
  omega

/-- C10: a `process` tick that finds fewer than `n` unconsumed samples while
the starvation timeout has not yet elapsed outputs a block of pure silence and
leaves the buffer contents and the cursor unchanged, so the remaining samples
stay available for a later tick. -/
theorem starved_tick_is_pure_silence (n : ℕ) (now : ℤ) (s : AudioState)
    (hshort : (s.buffer.length : ℤ) - (s.position : ℤ) < (n : ℤ))
    (htime : now - s.lastDataTime ≤ s.starvationTimeout) :
    (process n now s).2.1 = List.replicate n 0 ∧
    (process n now s).1.buffer = s.buffer ∧
    (process n now s).1.position = s.position := by
  have hb := requestMoreDataIfNeeded_buffer s
  have hp := requestMoreDataIfNeeded_position s
  have hl := requestMoreDataIfNeeded_lastDataTime s
  have ht := requestMoreDataIfNeeded_starvationTimeout s
  simp only [process]
  split_ifs with h1 h2 h3
  · exact ⟨rfl, rfl, rfl⟩
  · rw [handleStarvation_no_timeout now _ (by rw [hl, ht]; exact htime)] at h3
    simp at h3
  · rw [handleStarvation_no_timeout now _ (by rw [hl, ht]; exact htime)]
    exact ⟨rfl, hb, hp⟩
  · rw [hb, hp] at h2
    omega
  · rw [hb, hp] at h2
    omega

/-- Witness for C10 on an empty buffer shortly after construction. -/
theorem starved_tick_witness :
    (process 4 10 (initialAudioState 0)).2.1 = List.replicate 4 0 ∧
    (process 4 10 (initialAudioState 0)).1.buffer = (initialAudioState 0).buffer ∧
    (process 4 10 (initialAudioState 0)).1.position = (initialAudioState 0).position :=
  starved_tick_is_pure_silence 4 10 (initialAudioState 0) (by decide) (by decide)

/-! ### C1: FIFO delivery over append/pull runs -/

inductive BufferOp where
  | append (audio : List ℚ) (now : ℤ)
  | pull (n : ℕ) (now : ℤ)
  deriving DecidableEq

def runOps (s : AudioState) : List BufferOp → AudioState × List ℚ
  | [] => (s, [])
  | BufferOp.append audio now :: ops => runOps (handleData audio now s) ops
  | BufferOp.pull n now :: ops =>
      let r := process n now s
      let rest := runOps r.1 ops
      (rest.1, r.2.1 ++ rest.2)

def appendedOf : List BufferOp → List ℚ
  | [] => []
  | BufferOp.append audio _ :: ops => audio ++ appendedOf ops
  | BufferOp.pull _ _ :: ops => appendedOf ops

def noStarve : AudioState → List BufferOp → Bool
  | _, [] => true
  | s, BufferOp.append audio now :: ops => noStarve (handleData audio now s) ops
  | s, BufferOp.pull n now :: ops =>
      decide ((n : ℤ) ≤ (s.buffer.length : ℤ) - (s.position : ℤ)) &&
      noStarve (process n now s).1 ops

theorem requestMoreDataIfNeeded_isPlaying (s : AudioState) :
    (requestMoreDataIfNeeded s).1.isPlaying = s.isPlaying := by
  rcases requestMoreDataIfNeeded_fst s with h | h
  all_goals rw [h]

theorem handleStarvation_isPlaying (now : ℤ) (s : AudioState) :
    (handleStarvation now s).1.isPlaying = s.isPlaying := by
  simp only [handleStarvation]
  split_ifs
  · exact requestMoreDataIfNeeded_isPlaying _
  · exact requestMoreDataIfNeeded_isPlaying _
  · rfl
  · rfl

theorem process_isPlaying (n : ℕ) (now : ℤ) (s : AudioState) :
    (process n now s).1.isPlaying = s.isPlaying := by
  simp only [process]
  split_ifs
  · rfl
  · rw [handleStarvation_isPlaying, requestMoreDataIfNeeded_isPlaying]
  · dsimp only
    rw [handleStarvation_isPlaying, requestMoreDataIfNeeded_isPlaying]
  · exact requestMoreDataIfNeeded_isPlaying s
  · exact requestMoreDataIfNeeded_isPlaying s

theorem process_enough (n : ℕ) (now : ℤ) (s : AudioState)
    (hplay : s.isPlaying = true)
    (hge : (n : ℤ) ≤ (s.buffer.length : ℤ) - (s.position : ℤ)) :
    (process n now s).2.1 = (s.buffer.drop s.position).take n ∧
    (process n now s).1.buffer.drop (process n now s).1.position =
      s.buffer.drop (s.position + n) := by
  have hb := requestMoreDataIfNeeded_buffer s
  have hp := requestMoreDataIfNeeded_position s
  simp only [process]
  split_ifs with h1 h2 h3
  · rw [hplay] at h1
    exact absurd h1 (by simp)
  · rw [hb, hp] at h2
    omega
  · rw [hb, hp] at h2
    omega
  · refine ⟨by rw [hb, hp], ?_⟩
    dsimp only
    rw [hb, hp, List.drop_zero]
  · refine ⟨by rw [hb, hp], ?_⟩
    dsimp only
    rw [hb, hp]

theorem runOps_fifo (ops : List BufferOp) : ∀ (s : AudioState),
    s.position ≤ s.buffer.length → s.isPlaying = true → noStarve s ops = true →
    (runOps s ops).2 ++ ((runOps s ops).1.buffer.drop (runOps s ops).1.position) =
      (s.buffer.drop s.position) ++ appendedOf ops := by
  induction ops with
  | nil =>
      intro s _ _ _
      simp [runOps, appendedOf]
  | cons op ops ih =>
      intro s hInv hPlay hNs
      cases op with
      | append audio now =>
          have h1 : (handleData audio now s).position ≤ (handleData audio now s).buffer.length := by
            show s.position ≤ (s.buffer ++ audio).length
            rw [List.length_append]
            omega
          have h2 : (handleData audio now s).isPlaying = true := rfl
          have h3 := ih (handleData audio now s) h1 h2 hNs
          simp only [runOps, appendedOf]
          rw [h3]
          show List.drop s.position (s.buffer ++ audio) ++ appendedOf ops =
            List.drop s.position s.buffer ++ (audio ++ appendedOf ops)
          rw [List.drop_append_of_le_length hInv, List.append_assoc]
      | pull n now =>
          rw [noStarve] at hNs
          rw [Bool.and_eq_true, decide_eq_true_eq] at hNs
          obtain ⟨hge, hNs'⟩ := hNs
          have hInv' : (process n now s).1.position ≤ (process n now s).1.buffer.length :=
            process_inv n now s hInv
          have hPlay' : (process n now s).1.isPlaying = true := by
            rw [process_isPlaying, hPlay]
          have h3 := ih (process n now s).1 hInv' hPlay' hNs'
          have he := process_enough n now s hPlay hge
          simp only [runOps, appendedOf]
          rw [he.1, List.append_assoc, h3, he.2, ← List.append_assoc,
            List.drop_take_append_drop]

/-- C1: over any run of append and pull operations from the initial state in
which every pull finds at least `n` unconsumed samples (`noStarve`), the
concatenation of the samples returned by the pulls extends to the concatenation
of the appended frames in arrival order: no sample is lost, duplicated, or
reordered. -/
theorem pulled_is_prefix_of_appended (t0 : ℤ) (ops : List BufferOp)
    (h : noStarve (initialAudioState t0) ops = true) :
    ∃ rest, (runOps (initialAudioState t0) ops).2 ++ rest = appendedOf ops := by
  have h2 := runOps_fifo ops (initialAudioState t0) (Nat.le_refl 0) rfl h
  rw [show (initialAudioState t0).buffer.drop (initialAudioState t0).position =
    ([] : List ℚ) from rfl, List.nil_append] at h2
  exact ⟨_, h2⟩

/-- Witness for C1: one append of two samples followed by a pull of one. -/
theorem pulled_is_prefix_of_appended_witness :
    noStarve (initialAudioState 0) [BufferOp.append [1, 0] 5, BufferOp.pull 1 6] = true ∧
    ∃ rest, (runOps (initialAudioState 0)
        [BufferOp.append [1, 0] 5, BufferOp.pull 1 6]).2 ++ rest =
      appendedOf [BufferOp.append [1, 0] 5, BufferOp.pull 1 6] :=
  ⟨by decide, pulled_is_prefix_of_appended 0 _ (by decide)⟩

/-! ### C2: need-data signalling -/

def runTicks (s : AudioState) : List (ℕ × ℤ) → AudioState × List OutMsg
  | [] => (s, [])
  | t :: ts =>
      let r := process t.1 t.2 s
      let rest := runTicks r.1 ts
      (rest.1, r.2.2 ++ rest.2)

theorem requestMoreDataIfNeeded_flag_true (s : AudioState)
    (h : s.needDataRequested = true) :
    requestMoreDataIfNeeded s = (s, []) := by
  simp only [requestMoreDataIfNeeded]
  rw [if_neg]
  simp [h]

theorem handleStarvation_lastDataTime (now : ℤ) (s : AudioState) :
    (handleStarvation now s).1.lastDataTime = s.lastDataTime := by
  simp only [handleStarvation]
  split_ifs
  · exact requestMoreDataIfNeeded_lastDataTime _
  · exact requestMoreDataIfNeeded_lastDataTime _
  · rfl
  · rfl

theorem handleStarvation_starvationTimeout (now : ℤ) (s : AudioState) :
    (handleStarvation now s).1.starvationTimeout = s.starvationTimeout := by
  simp only [handleStarvation]
  split_ifs
  · exact requestMoreDataIfNeeded_starvationTimeout _
  · exact requestMoreDataIfNeeded_starvationTimeout _
  · rfl
  · rfl

theorem process_lastDataTime (n : ℕ) (now : ℤ) (s : AudioState) :
    (process n now s).1.lastDataTime = s.lastDataTime := by
  simp only [process]
  split_ifs
  · rfl
  · rw [handleStarvation_lastDataTime, requestMoreDataIfNeeded_lastDataTime]
  · dsimp only
    rw [handleStarvation_lastDataTime, requestMoreDataIfNeeded_lastDataTime]
  · exact requestMoreDataIfNeeded_lastDataTime s
  · exact requestMoreDataIfNeeded_lastDataTime s

theorem process_starvationTimeout (n : ℕ) (now : ℤ) (s : AudioState) :
    (process n now s).1.starvationTimeout = s.starvationTimeout := by
  simp only [process]
  split_ifs
  · rfl
  · rw [handleStarvation_starvationTimeout, requestMoreDataIfNeeded_starvationTimeout]
  · dsimp only
    rw [handleStarvation_starvationTimeout, requestMoreDataIfNeeded_starvationTimeout]
  · exact requestMoreDataIfNeeded_starvationTimeout s
  · exact requestMoreDataIfNeeded_starvationTimeout s

theorem process_flag_true (n : ℕ) (now : ℤ) (s : AudioState)
    (hflag : s.needDataRequested = true)
    (htime : now - s.lastDataTime ≤ s.starvationTimeout) :
    (process n now s).2.2 = [] ∧ (process n now s).1.needDataRequested = true := by
  have hr := requestMoreDataIfNeeded_flag_true s hflag
  simp only [process, hr]
  split_ifs with h1 h2 h3
  · exact ⟨rfl, hflag⟩
  · rw [handleStarvation_no_timeout now s htime] at h3
    simp at h3
  · rw [handleStarvation_no_timeout now s htime]
    exact ⟨rfl, hflag⟩
  · exact ⟨rfl, hflag⟩
  · exact ⟨rfl, hflag⟩

theorem process_flag_false (n : ℕ) (now : ℤ) (s : AudioState)
    (hflag : s.needDataRequested = false)
    (htime : now - s.lastDataTime ≤ s.starvationTimeout) :
    ((process n now s).2.2 = [OutMsg.needData] ∧
      (process n now s).1.needDataRequested = true) ∨
    ((process n now s).2.2 = [] ∧
      (process n now s).1.needDataRequested = false) := by
  by_cases hc : ((s.buffer.length : ℤ) - (s.position : ℤ) <
      (if s.adaptiveBufferMode then (bufferThreshold : ℤ) * 2 else (bufferThreshold : ℤ)) ∧
      s.needDataRequested = false)
  · have hr : requestMoreDataIfNeeded s =
        ({ s with needDataRequested := true }, [OutMsg.needData]) := by
      simp only [requestMoreDataIfNeeded]
      rw [if_pos hc]
    have htime' : now - ({ s with needDataRequested := true } : AudioState).lastDataTime ≤
        ({ s with needDataRequested := true } : AudioState).starvationTimeout := htime
    simp only [process, hr]
    split_ifs with h1 h2 h3
    · exact Or.inr ⟨rfl, hflag⟩
    · rw [handleStarvation_no_timeout now _ htime'] at h3
      simp at h3
    · rw [handleStarvation_no_timeout now _ htime']
      exact Or.inl ⟨rfl, rfl⟩
    · exact Or.inl ⟨rfl, rfl⟩
    · exact Or.inl ⟨rfl, rfl⟩
  · have hr : requestMoreDataIfNeeded s = (s, []) := by
      simp only [requestMoreDataIfNeeded]
      rw [if_neg hc]
    simp only [process, hr]
    split_ifs with h1 h2 h3
    · exact Or.inr ⟨rfl, hflag⟩
    · rw [handleStarvation_no_timeout now s htime] at h3
      simp at h3
    · rw [handleStarvation_no_timeout now s htime]
      exact Or.inr ⟨rfl, hflag⟩
    · exact Or.inr ⟨rfl, hflag⟩
    · exact Or.inr ⟨rfl, hflag⟩

theorem runTicks_flag_true (ticks : List (ℕ × ℤ)) : ∀ (s : AudioState),
    (∀ t ∈ ticks, t.2 - s.lastDataTime ≤ s.starvationTimeout) →
    s.needDataRequested = true →
    (runTicks s ticks).2.count OutMsg.needData = 0 ∧
    (runTicks s ticks).1.needDataRequested = true := by
  induction ticks with
  | nil =>
      intro s _ hf
      exact ⟨rfl, hf⟩
  | cons t ts ih =>
      intro s h hf
      have ht := h t (List.mem_cons_self t ts)
      have hA := process_flag_true t.1 t.2 s hf ht
      have h' : ∀ u ∈ ts, u.2 - (process t.1 t.2 s).1.lastDataTime ≤
          (process t.1 t.2 s).1.starvationTimeout := by
        intro u hu
        rw [process_lastDataTime, process_starvationTimeout]
        exact h u (List.mem_cons_of_mem t hu)
      have hrest := ih (process t.1 t.2 s).1 h' hA.2
      simp only [runTicks]
      rw [hA.1, List.nil_append]
      exact hrest

theorem runTicks_needData_le_one (ticks : List (ℕ × ℤ)) : ∀ (s : AudioState),
    (∀ t ∈ ticks, t.2 - s.lastDataTime ≤ s.starvationTimeout) →
    (runTicks s ticks).2.count OutMsg.needData ≤ 1 := by
  induction ticks with
  | nil =>
      intro s _
      exact Nat.zero_le 1
  | cons t ts ih =>
      intro s h
      have ht := h t (List.mem_cons_self t ts)
      have h' : ∀ u ∈ ts, u.2 - (process t.1 t.2 s).1.lastDataTime ≤
          (process t.1 t.2 s).1.starvationTimeout := by
        intro u hu
        rw [process_lastDataTime, process_starvationTimeout]
        exact h u (List.mem_cons_of_mem t hu)
      simp only [runTicks]
      cases hb : s.needDataRequested with
      | true =>
          have hA := process_flag_true t.1 t.2 s hb ht
          rw [hA.1, List.nil_append]
          have h0 := (runTicks_flag_true ts (process t.1 t.2 s).1 h' hA.2).1
          rw [h0]
          exact Nat.zero_le 1
      | false =>
          rcases process_flag_false t.1 t.2 s hb ht with ⟨hm, hf⟩ | ⟨hm, hf⟩
          · rw [hm]
            have h0 := (runTicks_flag_true ts (process t.1 t.2 s).1 h' hf).1
            rw [List.count_append, h0]
            simp [List.count_cons]
          · rw [hm, List.nil_append]
            exact ih (process t.1 t.2 s).1 h'

/-- C2 (amended): over any run of consecutive `process` ticks with no
intervening append in which the starvation timeout has not elapsed at any tick,
at most one needData signal is emitted; moreover if the outstanding-request
flag is already set, no signal at all is emitted and the flag stays set.  (The
restriction to non-starved ticks is forced by the counterexample: the
starvation-recovery branch clears the flag on a pull and re-emits.) -/
theorem needData_signal_not_duplicated (s : AudioState) (ticks : List (ℕ × ℤ))
    (h : ∀ t ∈ ticks, t.2 - s.lastDataTime ≤ s.starvationTimeout) :
    (runTicks s ticks).2.count OutMsg.needData ≤ 1 ∧
    (s.needDataRequested = true →
      (runTicks s ticks).2.count OutMsg.needData = 0 ∧
      (runTicks s ticks).1.needDataRequested = true) :=
  ⟨runTicks_needData_le_one ticks s h, fun hf => runTicks_flag_true ticks s h hf⟩

/-- Witness for C2 (amended): two non-starved ticks from the initial state. -/
theorem needData_signal_not_duplicated_witness :
    (∀ t ∈ [((4 : ℕ), (10 : ℤ)), ((4 : ℕ), (20 : ℤ))],
      t.2 - (initialAudioState 0).lastDataTime ≤ (initialAudioState 0).starvationTimeout) ∧
    (runTicks (initialAudioState 0) [(4, 10), (4, 20)]).2.count OutMsg.needData ≤ 1 :=
  ⟨by decide, (needData_signal_not_duplicated (initialAudioState 0)
    [(4, 10), (4, 20)] (by decide)).1⟩

/-- C2 (counterexample): from the initial state, a pull at time 100 emits
needData and sets the outstanding flag; a second pull at time 40000 (past the
30000 ms starvation timeout) with no intervening append emits needData again,
because the starvation-recovery branch clears the flag on a mere pull.  Two
signals are emitted in a run of consecutive pulls during which the flag was
set, refuting the claim that the flag is cleared only by an append or a hard
reset. -/
theorem needData_duplicate_counterexample :
    (runTicks (initialAudioState 0) [(128, 100), (128, 40000)]).2.count OutMsg.needData = 2 ∧
    (process 128 100 (initialAudioState 0)).1.needDataRequested = true := by
  constructor
  · rfl
  · rfl

/-! ### C3: hard resets -/

theorem requestMoreDataIfNeeded_recoveryAttempts (s : AudioState) :
    (requestMoreDataIfNeeded s).1.recoveryAttempts = s.recoveryAttempts := by
  rcases requestMoreDataIfNeeded_fst s with h | h
  all_goals rw [h]

theorem requestMoreDataIfNeeded_silenceFillCount (s : AudioState) :
    (requestMoreDataIfNeeded s).1.silenceFillCount = s.silenceFillCount := by
  rcases requestMoreDataIfNeeded_fst s with h | h
  all_goals rw [h]

theorem requestMoreDataIfNeeded_snd (s : AudioState) :
    (requestMoreDataIfNeeded s).2 = [] ∨
    (requestMoreDataIfNeeded s).2 = [OutMsg.needData] := by
  simp only [requestMoreDataIfNeeded]
  split_ifs
  all_goals first | exact Or.inl rfl | exact Or.inr rfl

theorem handleStarvation_exhausted (now : ℤ) (s : AudioState)
    (htime : now - s.lastDataTime > s.starvationTimeout)
    (hmax : maxRecoveryAttempts ≤ s.recoveryAttempts) :
    handleStarvation now s =
      ({ s with buffer := [], position := 0, needDataRequested := false, recoveryAttempts := 0, silenceFillCount := 0 }, [OutMsg.bufferReset], false) := by
  simp only [handleStarvation]
  rw [if_pos htime, if_neg (by omega)]

theorem handleStarvation_silence_reset (now : ℤ) (s : AudioState)
    (htime : now - s.lastDataTime > s.starvationTimeout)
    (hlt : s.recoveryAttempts < maxRecoveryAttempts)
    (hsfc : maxSilenceFills < s.silenceFillCount + 1) :
    (handleStarvation now s).1.buffer = [] ∧
    (handleStarvation now s).1.position = 0 ∧
    (handleStarvation now s).1.silenceFillCount = 0 ∧
    (handleStarvation now s).1.recoveryAttempts = s.recoveryAttempts + 1 ∧
    (handleStarvation now s).2.1.count OutMsg.bufferReset = 1 ∧
    (handleStarvation now s).2.2 = true := by
  have hcond : maxSilenceFills <
      (requestMoreDataIfNeeded { s with recoveryAttempts := s.recoveryAttempts + 1, silenceFillCount := s.silenceFillCount + 1, needDataRequested := false }).1.silenceFillCount := by
    rw [requestMoreDataIfNeeded_silenceFillCount]
    exact hsfc
  simp only [handleStarvation]
  rw [if_pos htime, if_pos hlt, if_pos hcond]
  refine ⟨rfl, rfl, rfl, ?_, ?_, rfl⟩
  · rw [requestMoreDataIfNeeded_recoveryAttempts]
  · rcases requestMoreDataIfNeeded_snd { s with recoveryAttempts := s.recoveryAttempts + 1, silenceFillCount := s.silenceFillCount + 1, needDataRequested := false } with h | h
    · rw [h]
      rfl
    · rw [h]
      rfl

/-- C3 (amended): on a starved tick past the timeout, (i) if the recovery
attempts have reached the maximum, the hard reset empties the buffer, zeroes
the cursor and all counters (recovery attempts, silence-fill count,
outstanding-request flag) and emits exactly one bufferReset; (ii) if the
attempts are below the maximum but the incremented silence-fill count exceeds
its maximum, the reset empties the buffer and zeroes the cursor and emits
exactly one bufferReset, but the recovery-attempt counter remains incremented
(nonzero) and the silence-fill count ends at 1 after the tick's trailing
increment (and the outstanding flag is not cleared by this reset). -/
theorem hard_reset_behaviour (n : ℕ) (now : ℤ) (s : AudioState)
    (hplay : s.isPlaying = true)
    (hshort : (s.buffer.length : ℤ) - (s.position : ℤ) < (n : ℤ))
    (htime : now - s.lastDataTime > s.starvationTimeout) :
    (maxRecoveryAttempts ≤ s.recoveryAttempts →
      (process n now s).1.buffer = [] ∧ (process n now s).1.position = 0 ∧
      (process n now s).1.recoveryAttempts = 0 ∧
      (process n now s).1.silenceFillCount = 0 ∧
      (process n now s).1.needDataRequested = false ∧
      (process n now s).2.2.count OutMsg.bufferReset = 1) ∧
    (s.recoveryAttempts < maxRecoveryAttempts → maxSilenceFills < s.silenceFillCount + 1 →
      (process n now s).1.buffer = [] ∧ (process n now s).1.position = 0 ∧
      (process n now s).1.silenceFillCount = 1 ∧
      (process n now s).1.recoveryAttempts = s.recoveryAttempts + 1 ∧
      (process n now s).2.2.count OutMsg.bufferReset = 1) := by
  have hb := requestMoreDataIfNeeded_buffer s
  have hp := requestMoreDataIfNeeded_position s
  have hl := requestMoreDataIfNeeded_lastDataTime s
  have ht := requestMoreDataIfNeeded_starvationTimeout s
  have hra := requestMoreDataIfNeeded_recoveryAttempts s
  have hsf := requestMoreDataIfNeeded_silenceFillCount s
  have htime' : now - (requestMoreDataIfNeeded s).1.lastDataTime >
      (requestMoreDataIfNeeded s).1.starvationTimeout := by
    rw [hl, ht]
    exact htime
  constructor
  · intro hmax
    have hmax' : maxRecoveryAttempts ≤ (requestMoreDataIfNeeded s).1.recoveryAttempts := by
      rw [hra]
      exact hmax
    have hse := handleStarvation_exhausted now (requestMoreDataIfNeeded s).1 htime' hmax'
    simp only [process, hse]
    split_ifs with h1 h2 h3
    · rw [hplay] at h1
      exact absurd h1 (by simp)
    · refine ⟨rfl, rfl, rfl, rfl, rfl, ?_⟩
      rcases requestMoreDataIfNeeded_snd s with h4 | h4
      · rw [h4]
        rfl
      · rw [h4]
        rfl
    · rw [hb, hp] at h2
      omega
    · rw [hb, hp] at h2
      omega
  · intro hlt hsfc
    have hlt' : (requestMoreDataIfNeeded s).1.recoveryAttempts < maxRecoveryAttempts := by
      rw [hra]
      exact hlt
    have hsfc' : maxSilenceFills < (requestMoreDataIfNeeded s).1.silenceFillCount + 1 := by
      rw [hsf]
      exact hsfc
    have hss := handleStarvation_silence_reset now (requestMoreDataIfNeeded s).1 htime' hlt' hsfc'
    simp only [process]
    split_ifs with h1 h2 h3
    · rw [hplay] at h1
      exact absurd h1 (by simp)
    · rw [hss.2.2.2.2.2] at h3
      exact absurd h3 (by simp)
    · refine ⟨hss.1, hss.2.1, ?_, ?_, ?_⟩
      · show (handleStarvation now (requestMoreDataIfNeeded s).1).1.silenceFillCount + 1 = 1
        rw [hss.2.2.1]
      · show (handleStarvation now (requestMoreDataIfNeeded s).1).1.recoveryAttempts =
          s.recoveryAttempts + 1
        rw [hss.2.2.2.1, hra]
      · rw [List.count_append, hss.2.2.2.2.1]
        rcases requestMoreDataIfNeeded_snd s with h4 | h4
        · rw [h4]
          rfl
        · rw [h4]
          rfl
    · rw [hb, hp] at h2
      omega
    · rw [hb, hp] at h2
      omega

def silenceOverflowState : AudioState :=
  { initialAudioState 0 with silenceFillCount := 100 }

/-- C3 (counterexample): at a state with 100 prior consecutive silence fills,
the silence-fill-overflow reset fires (one bufferReset), yet afterwards the
recovery-attempt counter is 1 (not zero) and the outstanding data-request flag
is set (not cleared), refuting that every hard reset zeroes all counters. -/
theorem hard_reset_counterexample :
    (process 128 40000 silenceOverflowState).2.2.count OutMsg.bufferReset = 1 ∧
    (process 128 40000 silenceOverflowState).1.recoveryAttempts = 1 ∧
    (process 128 40000 silenceOverflowState).1.needDataRequested = true :=
  ⟨rfl, rfl, rfl⟩

def exhaustedState : AudioState :=
  { initialAudioState 0 with recoveryAttempts := 10 }

/-- Witness for C3 (amended) at a state with the recovery attempts already at
the maximum. -/
theorem hard_reset_behaviour_witness :
    (maxRecoveryAttempts ≤ exhaustedState.recoveryAttempts →
      (process 128 40000 exhaustedState).1.buffer = [] ∧
      (process 128 40000 exhaustedState).1.position = 0 ∧
      (process 128 40000 exhaustedState).1.recoveryAttempts = 0 ∧
      (process 128 40000 exhaustedState).1.silenceFillCount = 0 ∧
      (process 128 40000 exhaustedState).1.needDataRequested = false ∧
      (process 128 40000 exhaustedState).2.2.count OutMsg.bufferReset = 1) ∧
    (exhaustedState.recoveryAttempts < maxRecoveryAttempts →
      maxSilenceFills < exhaustedState.silenceFillCount + 1 →
      (process 128 40000 exhaustedState).1.buffer = [] ∧
      (process 128 40000 exhaustedState).1.position = 0 ∧
      (process 128 40000 exhaustedState).1.silenceFillCount = 1 ∧
      (process 128 40000 exhaustedState).1.recoveryAttempts = exhaustedState.recoveryAttempts + 1 ∧
      (process 128 40000 exhaustedState).2.2.count OutMsg.bufferReset = 1) :=
  hard_reset_behaviour 128 40000 exhaustedState (by decide) (by decide) (by decide)

/-! ### Session manager (Content.js: setupWebSocketConnection) -/

def maxReconnectAttempts : ℕ := 5

def reconnectInterval : ℕ := 2000

structure ConnState where
  reconnectAttempts : ℕ
  micReady : Bool
  wsOpen : Bool
  deriving DecidableEq

inductive WsSend where
  | config (knowledgeBaseId region : String)
  | audio (payload : List ℤ)
  deriving DecidableEq

inductive ConnOut where
  | send (m : WsSend)
  | scheduleReconnect (delayMs : ℕ)
  | disengage
  deriving DecidableEq

inductive ConnEvent where
  | socketOpen (stillOpenAtConfig : Bool)
  | audioTick (input : List ℚ)
  | socketClose
  deriving DecidableEq

def connStep (kbId region : String) (isEngaged : Bool) (s : ConnState) :
    ConnEvent → ConnState × List ConnOut
  | ConnEvent.socketOpen stillOpen =>
      ({ reconnectAttempts := 0, micReady := true, wsOpen := stillOpen },
       if stillOpen = true then [ConnOut.send (WsSend.config kbId region)] else [])
  | ConnEvent.audioTick input =>
      (s, if s.micReady = true ∧ s.wsOpen = true then
            [ConnOut.send (WsSend.audio (floatToPcm16 input))]
          else [])
  | ConnEvent.socketClose =>
      if isEngaged = true ∧ s.reconnectAttempts < maxReconnectAttempts then
        ({ s with wsOpen := false, reconnectAttempts := s.reconnectAttempts + 1 },
         [ConnOut.scheduleReconnect reconnectInterval])
      else if maxReconnectAttempts ≤ s.reconnectAttempts then
        ({ s with wsOpen := false }, [ConnOut.disengage])
      else
        ({ s with wsOpen := false }, [])

def connRun (kbId region : String) (isEngaged : Bool) (s : ConnState) :
    List ConnEvent → ConnState × List ConnOut
  | [] => (s, [])
  | e :: es =>
      let r := connStep kbId region isEngaged s e
      let rest := connRun kbId region isEngaged r.1 es
      (rest.1, r.2 ++ rest.2)

/-- C5 (counterexample): an open event on which the readyState check fails
before the config send (`stillOpenAtConfig = false`) resets the reconnection
attempt counter from 3 to 0 while no Config message is sent at all — the reset
is not gated on a successful Config handshake. -/
theorem reconnect_reset_counterexample :
    (connStep "kb" "region" true
      { reconnectAttempts := 3, micReady := false, wsOpen := false }
      (ConnEvent.socketOpen false)).1.reconnectAttempts = 0 ∧
    (connStep "kb" "region" true
      { reconnectAttempts := 3, micReady := false, wsOpen := false }
      (ConnEvent.socketOpen false)).2 = [] :=
  ⟨rfl, rfl⟩

/-- C5 (amended): the reconnection attempt counter is reset to zero at the
start of the onopen handler — upon the socket reaching the open state —
unconditionally, before and regardless of whether the Config message is
subsequently sent (the Config send itself is guarded by a readyState check). -/
theorem reconnect_reset_on_open (kbId region : String) (isEngaged : Bool)
    (s : ConnState) (stillOpen : Bool) :
    (connStep kbId region isEngaged s (ConnEvent.socketOpen stillOpen)).1.reconnectAttempts = 0 ∧
    ((connStep kbId region isEngaged s (ConnEvent.socketOpen stillOpen)).2 =
      if stillOpen = true then [ConnOut.send (WsSend.config kbId region)] else []) :=
  ⟨rfl, rfl⟩

theorem connRun_idle_ticks (kbId region : String) (isEngaged : Bool)
    (ts0 : List (List ℚ)) : ∀ (s : ConnState), s.micReady = false →
    ∀ evs, connRun kbId region isEngaged s (ts0.map ConnEvent.audioTick ++ evs) =
      connRun kbId region isEngaged s evs := by
  induction ts0 with
  | nil =>
      intro s _ evs
      rfl
  | cons t ts ih =>
      intro s hmic evs
      have hstep : connStep kbId region isEngaged s (ConnEvent.audioTick t) = (s, []) := by
        simp only [connStep]
        rw [if_neg]
        simp [hmic]
      rw [List.map_cons, List.cons_append]
      simp only [connRun, hstep]
      rw [List.nil_append, ih s hmic evs]

theorem connRun_active_ticks (kbId region : String) (isEngaged : Bool)
    (ts1 : List (List ℚ)) : ∀ (s : ConnState), s.micReady = true → s.wsOpen = true →
    connRun kbId region isEngaged s (ts1.map ConnEvent.audioTick) =
      (s, ts1.map (fun input => ConnOut.send (WsSend.audio (floatToPcm16 input)))) := by
  induction ts1 with
  | nil =>
      intro s _ _
      rfl
  | cons t ts ih =>
      intro s hmic hopen
      have hstep : connStep kbId region isEngaged s (ConnEvent.audioTick t) =
          (s, [ConnOut.send (WsSend.audio (floatToPcm16 t))]) := by
        simp only [connStep]
        rw [if_pos ⟨hmic, hopen⟩]
      rw [List.map_cons]
      simp only [connRun, hstep, ih s hmic hopen]
      rfl

theorem connRun_closed_ticks (kbId region : String) (isEngaged : Bool)
    (ts : List (List ℚ)) : ∀ (s : ConnState), s.wsOpen = false →
    connRun kbId region isEngaged s (ts.map ConnEvent.audioTick) = (s, []) := by
  induction ts with
  | nil =>
      intro s _
      rfl
  | cons t ts ih =>
      intro s hws
      have hstep : connStep kbId region isEngaged s (ConnEvent.audioTick t) = (s, []) := by
        simp only [connStep]
        rw [if_neg]
        simp [hws]
      rw [List.map_cons]
      simp only [connRun, hstep, ih s hws]
      rfl

/-- C7 (counterexample): a connection on which the onopen handler fires but the
socket has already left the OPEN state when the guarded config send executes
(`Content.js` line 263) sends zero Config messages on that connection — not
exactly one — and forwards no audio either, since the audio path checks
readyState too. -/
theorem config_missing_counterexample :
    (connRun "kb" "region" true
      { reconnectAttempts := 0, micReady := false, wsOpen := false }
      [ConnEvent.socketOpen false, ConnEvent.audioTick []]).2.count
        (ConnOut.send (WsSend.config "kb" "region")) = 0 ∧
    (connRun "kb" "region" true
      { reconnectAttempts := 0, micReady := false, wsOpen := false }
      [ConnEvent.socketOpen false, ConnEvent.audioTick []]).2 = [] :=
  ⟨rfl, rfl⟩

/-- C7 (amended): on a connection whose open handler still finds the socket
OPEN at the guarded config send, the trace of messages sent is exactly one
Config message (carrying the knowledge-base id and region) followed by the
captured-audio messages, with nothing sent before the Config (the microphone
handler is not yet installed); if the socket has left the OPEN state by the
time of the guarded send, no Config and no audio at all are sent on that
connection.  (Per-connection event model with handlers run atomically.) -/
theorem config_sent_once_before_audio (kbId region : String) (isEngaged : Bool)
    (a : ℕ) (w b : Bool) (ts0 ts1 : List (List ℚ)) :
    (connRun kbId region isEngaged
      { reconnectAttempts := a, micReady := false, wsOpen := w }
      (ts0.map ConnEvent.audioTick ++
        ConnEvent.socketOpen b :: ts1.map ConnEvent.audioTick)).2 =
    (if b = true then
      ConnOut.send (WsSend.config kbId region) ::
        ts1.map (fun input => ConnOut.send (WsSend.audio (floatToPcm16 input)))
    else []) := by
  rw [connRun_idle_ticks kbId region isEngaged ts0
    { reconnectAttempts := a, micReady := false, wsOpen := w } rfl]
  cases b with
  | true =>
      have hstep : connStep kbId region isEngaged
          { reconnectAttempts := a, micReady := false, wsOpen := w }
          (ConnEvent.socketOpen true) =
          ({ reconnectAttempts := 0, micReady := true, wsOpen := true },
           [ConnOut.send (WsSend.config kbId region)]) := rfl
      simp only [connRun, hstep,
        connRun_active_ticks kbId region isEngaged ts1
          { reconnectAttempts := 0, micReady := true, wsOpen := true } rfl rfl]
      rfl
  | false =>
      have hstep : connStep kbId region isEngaged
          { reconnectAttempts := a, micReady := false, wsOpen := w }
          (ConnEvent.socketOpen false) =
          ({ reconnectAttempts := 0, micReady := true, wsOpen := false }, []) := rfl
      simp only [connRun, hstep,
        connRun_closed_ticks kbId region isEngaged ts1
          { reconnectAttempts := 0, micReady := true, wsOpen := false } rfl]
      rfl

theorem connRun_replicate_close (kbId region : String) (k : ℕ) : ∀ (s : ConnState),
    ((connRun kbId region true s (List.replicate k ConnEvent.socketClose)).2.count
        (ConnOut.scheduleReconnect reconnectInterval) =
      min k (maxReconnectAttempts - s.reconnectAttempts)) ∧
    (∀ d, ConnOut.scheduleReconnect d ∈
        (connRun kbId region true s (List.replicate k ConnEvent.socketClose)).2 →
      d = reconnectInterval) ∧
    (ConnOut.disengage ∈
        (connRun kbId region true s (List.replicate k ConnEvent.socketClose)).2 ↔
      maxReconnectAttempts - s.reconnectAttempts < k) := by
  induction k with
  | zero =>
      intro s
      refine ⟨?_, ?_, ?_⟩
      · simp [connRun]
      · intro d hd
        simp [connRun] at hd
      · simp [connRun]
  | succ k ih =>
      intro s
      by_cases hlt : s.reconnectAttempts < maxReconnectAttempts
      · have hstep : connStep kbId region true s ConnEvent.socketClose =
            ({ s with wsOpen := false, reconnectAttempts := s.reconnectAttempts + 1 },
             [ConnOut.scheduleReconnect reconnectInterval]) := by
          simp only [connStep]
          rw [if_pos ⟨trivial, hlt⟩]
        have hrec := ih { s with wsOpen := false, reconnectAttempts := s.reconnectAttempts + 1 }
        dsimp only at hrec
        rw [List.replicate_succ]
        simp only [connRun, hstep]
        refine ⟨?_, ?_, ?_⟩
        · rw [List.count_append, hrec.1]
          show 1 + min k (maxReconnectAttempts - (s.reconnectAttempts + 1)) =
            min (k + 1) (maxReconnectAttempts - s.reconnectAttempts)
          omega
        · intro d hd
          rw [List.mem_append] at hd
          rcases hd with hd | hd
          · rw [List.mem_singleton] at hd
            injection hd
          · exact hrec.2.1 d hd
        · rw [List.mem_append, hrec.2.2]
          constructor
          · intro hd
            rcases hd with hd | hd
            · rw [List.mem_singleton] at hd
              exact ConnOut.noConfusion hd
            · omega
          · intro hd
            right
            omega
      · have hstep : connStep kbId region true s ConnEvent.socketClose =
            ({ s with wsOpen := false }, [ConnOut.disengage]) := by
          simp only [connStep]
          rw [if_neg (by simp [hlt]), if_pos (by omega)]
        have hrec := ih { s with wsOpen := false }
        dsimp only at hrec
        rw [List.replicate_succ]
        simp only [connRun, hstep]
        refine ⟨?_, ?_, ?_⟩
        · rw [List.count_append, hrec.1]
          show 0 + min k (maxReconnectAttempts - s.reconnectAttempts) =
            min (k + 1) (maxReconnectAttempts - s.reconnectAttempts)
          omega
        · intro d hd
          rw [List.mem_append] at hd
          rcases hd with hd | hd
          · rw [List.mem_singleton] at hd
            exact absurd hd (by simp)
          · exact hrec.2.1 d hd
        · rw [List.mem_append]
          constructor
          · intro _
            omega
          · intro _
            left
            exact List.mem_singleton_self _

/-- C6: starting from an engaged session whose attempt counter is zero, if
every connection attempt fails (each producing only a close event), then over
any number k of close events exactly min k 5 reconnection attempts are
scheduled, every scheduled attempt uses the fixed 2000 ms backoff interval, and
the session disengages (terminal, user-visible failure) exactly when the five
attempts are exhausted, with no further attempts ever scheduled. -/
theorem reconnect_attempts_bounded (kbId region : String) (m w : Bool) (k : ℕ) :
    ((connRun kbId region true { reconnectAttempts := 0, micReady := m, wsOpen := w }
        (List.replicate k ConnEvent.socketClose)).2.count
      (ConnOut.scheduleReconnect reconnectInterval) = min k maxReconnectAttempts) ∧
    (∀ d, ConnOut.scheduleReconnect d ∈
        (connRun kbId region true { reconnectAttempts := 0, micReady := m, wsOpen := w }
          (List.replicate k ConnEvent.socketClose)).2 → d = reconnectInterval) ∧
    (ConnOut.disengage ∈
        (connRun kbId region true { reconnectAttempts := 0, micReady := m, wsOpen := w }
          (List.replicate k ConnEvent.socketClose)).2 ↔ maxReconnectAttempts < k) := by
  have h := connRun_replicate_close kbId region k
    { reconnectAttempts := 0, micReady := m, wsOpen := w }
  simpa using h
